import Mathlib

/-!
Verification of the simulation/state core of the sphere arcade prototype.

The embedding below mirrors the TypeScript source.  The primary store is the
zustand store of the quaternion variant (src/unnamed/part_000, identical to the
store at src/src/App.tsx lines 821-891 except for `resetGame`, which in that
file also clears balls and bricks; that variant lives in the `AppTsx`
namespace).  The older orbit-offset variant of the store (src/src/App.tsx
lines 330-392), whose `addBall` uses `shift().push(...)` instead of
`push(...).slice(-3)`, is embedded in the `V2` namespace.

Numeric values are idealized as real numbers; the ambient browser quantities
`window.innerWidth` / `window.innerHeight` and the results of `Math.random()`
are passed as explicit parameters.  Immutable.js collections are modelled as
follows: `List` as `List`, `Map<number, Brick>` as an association list with
Immutable's `get` / `set` / `delete` / `update` semantics (in particular
`update(key, updater)` applies the updater to `undefined` and *stores* the
result when the key is absent), and `Set<Object3DRef>` as a `Finset` of
opaque handle identities.
-/

namespace Sphere

noncomputable section

/-- Three.js `Vector3`: a triple of (idealized) real coordinates. -/
structure Vec3 where
  x : ℝ
  y : ℝ
  z : ℝ

/-- Three.js `Vector3.multiplyScalar`. -/
def Vec3.multiplyScalar (v : Vec3) (s : ℝ) : Vec3 :=
  ⟨v.x * s, v.y * s, v.z * s⟩

/-- Three.js `Vector3.add`. -/
def Vec3.add (a b : Vec3) : Vec3 :=
  ⟨a.x + b.x, a.y + b.y, a.z + b.z⟩

/-- Three.js `Vector3.length`: the Euclidean norm. -/
def Vec3.length (v : Vec3) : ℝ :=
  Real.sqrt (v.x * v.x + v.y * v.y + v.z * v.z)

/-- Three.js `Quaternion` (components x, y, z, w). -/
structure Quat where
  x : ℝ
  y : ℝ
  z : ℝ
  w : ℝ

/-- Three.js `new Quaternion()`: the identity rotation (0, 0, 0, 1). -/
def quatIdentity : Quat := ⟨0, 0, 0, 1⟩

/-- Three.js `Quaternion.setFromAxisAngle` (axis assumed normalized):
half-angle axis-angle construction. -/
def setFromAxisAngle (axis : Vec3) (angle : ℝ) : Quat :=
  let halfAngle := angle / 2
  let s := Real.sin halfAngle
  ⟨axis.x * s, axis.y * s, axis.z * s, Real.cos halfAngle⟩

/-- Three.js `Quaternion.multiplyQuaternions` (Hamilton product);
`a.multiply(b)` computes `multiplyQuaternions a b`. -/
def multiplyQuaternions (a b : Quat) : Quat :=
  ⟨a.x * b.w + a.w * b.x + a.y * b.z - a.z * b.y,
   a.y * b.w + a.w * b.y + a.z * b.x - a.x * b.z,
   a.z * b.w + a.w * b.z + a.x * b.y - a.y * b.x,
   a.w * b.w - a.x * b.x - a.y * b.y - a.z * b.z⟩

/-- Three.js `Quaternion.conjugate`. -/
def Quat.conjugate (q : Quat) : Quat := ⟨-q.x, -q.y, -q.z, q.w⟩

/-- Squared norm of a quaternion. -/
def normSq (q : Quat) : ℝ := q.x ^ 2 + q.y ^ 2 + q.z ^ 2 + q.w ^ 2

/-- Three.js (r12x) `Vector3.applyQuaternion`: computes `q * v` as a
quaternion product (components ix, iy, iz, iw) and then multiplies by the
conjugate of `q`, keeping the vector part. -/
def Vec3.applyQuaternion (v : Vec3) (q : Quat) : Vec3 :=
  let ix := q.w * v.x + q.y * v.z - q.z * v.y
  let iy := q.w * v.y + q.z * v.x - q.x * v.z
  let iz := q.w * v.z + q.x * v.y - q.y * v.x
  let iw := -q.x * v.x - q.y * v.y - q.z * v.z
  ⟨ix * q.w + iw * -q.x + iy * -q.z - iz * -q.y,
   iy * q.w + iw * -q.y + iz * -q.x - ix * -q.z,
   iz * q.w + iw * -q.z + ix * -q.y - iy * -q.x⟩

/-- A vector viewed as a pure quaternion (specification-side helper). -/
def Vec3.asQuat (v : Vec3) : Quat := ⟨v.x, v.y, v.z, 0⟩

/-- Specification-side notion of "transformed by the orientation": rotation of
a vector by a quaternion as the conjugation `q * v * conj q`, used to compare
the source's `applyQuaternion` against the spec's wording. -/
def rotateVec (q : Quat) (v : Vec3) : Vec3 :=
  let r := multiplyQuaternions (multiplyQuaternions q v.asQuat) q.conjugate
  ⟨r.x, r.y, r.z⟩

/-- The fixed 7-entry ball palette of the source. -/
def ballColors : List String :=
  ["rgb(249, 65, 68)", "rgb(243, 114, 44)", "rgb(248, 150, 30)",
   "rgb(249, 199, 79)", "rgb(144, 190, 109)", "rgb(67, 170, 139)",
   "rgb(87, 117, 144)"]

/-- Source `getBallColor`: palette indexed by `ballId % ballColors.length`. -/
def getBallColor (ballId : ℕ) : String :=
  ballColors.getD (ballId % ballColors.length) ""

/-- Source `Player` of the quaternion variant. -/
structure Player where
  orientation : Quat
  color : String

/-- Source `createPlayer`; `randIdx` stands for the sampled value
`Math.floor(Math.random() * ballColors.length)`. -/
def createPlayer (randIdx : ℕ) : Player :=
  ⟨quatIdentity, getBallColor randIdx⟩

/-- Source `Ball`. -/
structure Ball where
  velocity : Vec3
  position : Vec3
  color : String
  ballId : ℕ

/-- Source `createBallFromPlayer` (part_000 lines 83-98; App.tsx lines
755-770): spawn offset (0,0,3) and forward direction (0,0,-1), both rotated by
the player orientation, launch speed scale 2, player's color. -/
def createBallFromPlayer (ballId : ℕ) (player : Player) : Ball :=
  let translation : Vec3 := ⟨0, 0, 3⟩
  let direction : Vec3 := ⟨0, 0, -1⟩
  let position := translation.applyQuaternion player.orientation
  let velocity := (direction.applyQuaternion player.orientation).multiplyScalar 2
  { ballId := ballId, position := position, velocity := velocity,
    color := player.color }

/-- A brick object as stored in the map.  Every field is optional because a JS
object spread `\x7b...value, ...changes\x7d` over `undefined` can produce an
object carrying only some of the `Brick` fields (the `mesh` field, never
written by the store, is omitted). -/
structure BrickObj where
  brickId : Option ℕ
  orbitOffset : Option Vec3
  color : Option String

/-- Source `createBrick`: deterministic palette color from the id. -/
def createBrick (brickId : ℕ) (orbitOffset : Vec3) : BrickObj :=
  ⟨some brickId, some orbitOffset, some (getBallColor brickId)⟩

/-- JS object spread `\x7b...value, ...changes\x7d` where `value` may be
`undefined`: each field of `changes` wins when present, otherwise the field of
`value` (absent when `value` is `undefined`). -/
def spreadMerge (value : Option BrickObj) (changes : BrickObj) : BrickObj :=
  { brickId := changes.brickId.orElse fun _ => value.bind BrickObj.brickId,
    orbitOffset := changes.orbitOffset.orElse fun _ => value.bind BrickObj.orbitOffset,
    color := changes.color.orElse fun _ => value.bind BrickObj.color }

/-- Immutable.js `Map<number, Brick>` modelled as an association list. -/
abbrev BrickMap := List (ℕ × BrickObj)

/-- Immutable.js `Map.has`. -/
def mapHas (m : BrickMap) (k : ℕ) : Bool := m.any fun e => e.1 == k

/-- Immutable.js `Map.get` (`undefined` when absent). -/
def mapGet (m : BrickMap) (k : ℕ) : Option BrickObj :=
  (m.find? fun e => e.1 == k).map Prod.snd

/-- Immutable.js `Map.set`: replace the entry when the key is present,
otherwise add a new entry. -/
def mapSet (m : BrickMap) (k : ℕ) (v : BrickObj) : BrickMap :=
  if mapHas m k then m.map fun e => if e.1 == k then (k, v) else e
  else m ++ [(k, v)]

/-- Immutable.js `Map.delete`. -/
def mapDelete (m : BrickMap) (k : ℕ) : BrickMap :=
  m.filter fun e => !(e.1 == k)

/-- Immutable.js `Map.update(key, updater)` (no `notSetValue`): the updater is
applied to the current value — `undefined` when the key is absent — and the
result is stored with `set`; in particular an absent key is *inserted*. -/
def mapUpdate (m : BrickMap) (k : ℕ) (updater : Option BrickObj → BrickObj) : BrickMap :=
  mapSet m k (updater (mapGet m k))

/-- The zustand store state (part_000 lines 128-162; App.tsx lines 800-827).
Selection-registry handles (`Object3DRef` mount identities) are opaque
naturals. -/
structure AppState where
  player : Player
  balls : List Ball
  nextBallId : ℕ
  bricks : BrickMap
  nextBrickId : ℕ
  outlineSelection : Finset ℕ

/-- Immutable.js `List.push(ball).slice(-3)` keeps the last
`min 3 (length)` elements. -/
def sliceLast3 (l : List Ball) : List Ball := l.drop (l.length - 3)

/-- Source `addBall` (part_000 lines 164-171; App.tsx lines 829-836): append
the new ball, keep the last 3, bump `nextBallId`.  zustand's `set` merges the
returned partial state, leaving the other fields untouched. -/
def addBall (s : AppState) : AppState :=
  let ball := createBallFromPlayer s.nextBallId s.player
  { s with balls := sliceLast3 (s.balls ++ [ball]),
           nextBallId := s.nextBallId + 1 }

/-- Source `removeBrick`. -/
def removeBrick (s : AppState) (brickId : ℕ) : AppState :=
  { s with bricks := mapDelete s.bricks brickId }

/-- Source `addBrick`: insert keyed by the new brick's id (`nextBrickId`),
bump the counter. -/
def addBrick (s : AppState) (position : Vec3) : AppState :=
  let brick := createBrick s.nextBrickId position
  { s with bricks := mapSet s.bricks s.nextBrickId brick,
           nextBrickId := s.nextBrickId + 1 }

/-- Body of the `generateFibonacciSphere` loop for index `i` (samples = 64,
radius = 1.5), factored out of the loop. -/
def fibPoint (i : ℕ) : Vec3 :=
  let samples : ℕ := 64
  let radius : ℝ := 1.5
  let offset : ℝ := 2 / (samples : ℝ)
  let increment : ℝ := Real.pi * (3 - Real.sqrt 5)
  let y : ℝ := (i : ℝ) * offset - 1 + offset / 2
  let distance : ℝ := Real.sqrt (1 - y ^ 2)
  let phi : ℝ := (((i + 1) % samples : ℕ) : ℝ) * increment
  let x : ℝ := Real.cos phi * distance
  let z : ℝ := Real.sin phi * distance
  ⟨x * radius, y * radius, z * radius⟩

/-- Source `generateFibonacciSphere` (part_000 lines 258-276; App.tsx lines
902-920): the 64 golden-angle points pushed in loop order. -/
def generateFibonacciSphere : List Vec3 := (List.range 64).map fibPoint

/-- Source `addDefaultBricks`: `points.forEach(addBrick)` — one `addBrick`
action per generated point, in order. -/
def addDefaultBricks (s : AppState) : AppState :=
  generateFibonacciSphere.foldl addBrick s

/-- Source `resetGame` of part_000 (lines 249-255): it only calls
`addDefaultBricks` — nothing is cleared. -/
def resetGame (s : AppState) : AppState := addDefaultBricks s

/-- Source `updateBrick`: `bricks.update(brickId, value => (\x7b...value,
...changes\x7d))`. -/
def updateBrick (s : AppState) (brickId : ℕ) (changes : BrickObj) : AppState :=
  { s with bricks := mapUpdate s.bricks brickId fun value => spreadMerge value changes }

/-- Source `addOutlineSelection`: Immutable `Set.add` of the handle. -/
def addOutlineSelection (s : AppState) (mesh : ℕ) : AppState :=
  { s with outlineSelection := insert mesh s.outlineSelection }

/-- Source `removeOutlineSelection`: Immutable `Set.remove` of the handle. -/
def removeOutlineSelection (s : AppState) (mesh : ℕ) : AppState :=
  { s with outlineSelection := s.outlineSelection.erase mesh }

/-- `TouchPosition` of useInput: a present pointer/touch coordinate (the
`undefined` alternative is `Option`'s `none`). -/
structure TouchPos where
  x : ℝ
  y : ℝ

/-- Source `getAngleFromInput` (part_000 lines 278-294).  The ambient
`window.innerWidth` / `window.innerHeight` are explicit parameters.  Returns
`(horizontalAngle, verticalAngle)`. -/
def getAngleFromInput (leftPressed rightPressed upPressed downPressed : Bool)
    (touchPosition : Option TouchPos) (innerWidth innerHeight : ℝ) : ℝ × ℝ :=
  match touchPosition with
  | some t =>
      let verticalAngle := ((innerHeight - t.y) / innerHeight - 0.5) * 2
      let horizontalAngle := (t.x / innerWidth - 0.5) * 2
      (horizontalAngle, verticalAngle)
  | none =>
      let verticalAngle : ℝ := if downPressed then -1 else if upPressed then 1 else 0
      let horizontalAngle : ℝ := if leftPressed then -1 else if rightPressed then 1 else 0
      (horizontalAngle, verticalAngle)

/-- Source `movePlayer` (part_000 lines 204-242): axis-angle increments scaled
by `delta`, composed as `existing * vertical * horizontal`, replacing only the
orientation of the player. -/
def movePlayer (s : AppState) (delta : ℝ)
    (leftPressed rightPressed upPressed downPressed : Bool)
    (touchPosition : Option TouchPos) (innerWidth innerHeight : ℝ) : AppState :=
  let angles := getAngleFromInput leftPressed rightPressed upPressed downPressed
    touchPosition innerWidth innerHeight
  let horizontalAngle := angles.1
  let verticalAngle := angles.2
  let verticalAxis : Vec3 := ⟨-1, 0, 0⟩
  let verticalRotation := setFromAxisAngle verticalAxis (verticalAngle * delta)
  let horizontalAxis : Vec3 := ⟨0, 1, 0⟩
  let horizontalRotation := setFromAxisAngle horizontalAxis (horizontalAngle * delta)
  let orientation :=
    multiplyQuaternions (multiplyQuaternions s.player.orientation verticalRotation)
      horizontalRotation
  { s with player := { s.player with orientation := orientation } }

/-- The store's initial state (part_000 lines 156-162); `randIdx` is the random
palette index drawn inside `createPlayer`. -/
def initialState (randIdx : ℕ) : AppState :=
  { player := createPlayer randIdx, balls := [], nextBallId := 0,
    bricks := [], nextBrickId := 0, outlineSelection := ∅ }

/-- A store state whose id counter has already advanced to 1 (as after a
brick was added and removed), used to exercise `resetGame` away from the
initial state. -/
def stateWithNextBrickId1 : AppState :=
  { player := createPlayer 0, balls := [], nextBallId := 0,
    bricks := [], nextBrickId := 1, outlineSelection := ∅ }

namespace AppTsx

/-- Source `resetGame` of src/src/App.tsx (lines 880-890): clear balls and
bricks, then `addDefaultBricks` (note: `nextBrickId` is *not* reset). -/
def resetGame (s : AppState) : AppState :=
  Sphere.addDefaultBricks { s with balls := [], bricks := [] }

end AppTsx

/-- An action of the store drawn from the id-generating pair `addBall` /
`addBrick`, for reasoning about arbitrary call sequences. -/
inductive GameAct where
  | ballAct : GameAct
  | brickAct (position : Vec3) : GameAct

/-- Apply one `GameAct` to the store state. -/
def stepAct (s : AppState) (a : GameAct) : AppState :=
  match a with
  | .ballAct => addBall s
  | .brickAct p => addBrick s p

/-- Apply a sequence of `addBall` / `addBrick` calls in order. -/
def runActs (s : AppState) (acts : List GameAct) : AppState :=
  acts.foldl stepAct s

/-- JS `MathUtils.clamp(value, lo, hi)` = `Math.max(lo, Math.min(hi, value))`. -/
def clamp (value lo hi : ℝ) : ℝ := max lo (min hi value)

/-- JS `Math.atan2(y, x)` over idealized reals. -/
def atan2 (y x : ℝ) : ℝ :=
  if 0 < x then Real.arctan (y / x)
  else if x < 0 then
    (if 0 ≤ y then Real.arctan (y / x) + Real.pi else Real.arctan (y / x) - Real.pi)
  else
    (if 0 < y then Real.pi / 2 else if y < 0 then -(Real.pi / 2) else 0)

/-- Three.js `Euler` with the default "XYZ" order. -/
structure Euler3 where
  x : ℝ
  y : ℝ
  z : ℝ

/-- Three.js (r12x) `Euler.setFromQuaternion` with order "XYZ": build the
rotation matrix of the quaternion (`Matrix4.makeRotationFromQuaternion`) and
extract XYZ Euler angles from its entries. -/
def eulerFromQuatXYZ (q : Quat) : Euler3 :=
  let m11 := 1 - 2 * (q.y * q.y + q.z * q.z)
  let m12 := 2 * (q.x * q.y - q.w * q.z)
  let m13 := 2 * (q.x * q.z + q.w * q.y)
  let m22 := 1 - 2 * (q.x * q.x + q.z * q.z)
  let m23 := 2 * (q.y * q.z - q.w * q.x)
  let m32 := 2 * (q.y * q.z + q.w * q.x)
  let m33 := 1 - 2 * (q.x * q.x + q.y * q.y)
  let ey := Real.arcsin (clamp m13 (-1) 1)
  if |m13| < 0.9999999 then ⟨atan2 (-m23) m33, ey, atan2 (-m12) m11⟩
  else ⟨atan2 m32 m22, ey, 0⟩

/-- Three.js `Euler.toVector3` (present in the r12x era). -/
def Euler3.toVector3 (e : Euler3) : Vec3 := ⟨e.x, e.y, e.z⟩

/-- Three.js `Vector3.normalize`: `divideScalar(length() || 1)`. -/
def Vec3.normalize (v : Vec3) : Vec3 :=
  let l := v.length
  let d := if l = 0 then 1 else l
  v.multiplyScalar (1 / d)

namespace V2

/-- Source `Player` of the orbit-offset variant (App.tsx lines 238-240). -/
structure Player where
  orbitOffset : Vec3

/-- Source `createPlayer` of the orbit-offset variant (App.tsx lines 242-244). -/
def createPlayer : Player := ⟨⟨0, 0, 4⟩⟩

/-- Source `orbitAround` (App.tsx lines 394-407): axis-angle rotation about
(0,1,0) by the offset's y component, Euler extraction, and the rotated
standoff (0,0,offset.z). -/
def orbitAround (orbitOffset : Vec3) : Euler3 × Vec3 :=
  let quaternion := setFromAxisAngle ⟨0, 1, 0⟩ orbitOffset.y
  let euler := eulerFromQuatXYZ quaternion
  let translationOffset : Vec3 := ⟨0, 0, orbitOffset.z⟩
  let translation := translationOffset.applyQuaternion quaternion
  (euler, translation)

/-- Source `createBall` (App.tsx lines 267-276): color from the ball id. -/
def createBall (ballId : ℕ) (position velocity : Vec3) : Ball :=
  { ballId := ballId, position := position, velocity := velocity,
    color := getBallColor ballId }

/-- Source `createBallFromPlayer` of the orbit-offset variant (App.tsx lines
278-285). -/
def createBallFromPlayer (ballId : ℕ) (player : Player) : Ball :=
  let rt := orbitAround player.orbitOffset
  let direction := (rt.1.toVector3.normalize).multiplyScalar (-1)
  let velocity := direction.multiplyScalar 1.5
  let position := rt.2.add direction
  createBall ballId position velocity

/-- Store state of the orbit-offset variant (App.tsx lines 307-328). -/
structure AppState where
  player : Player
  balls : List Ball
  nextBallId : ℕ
  bricks : BrickMap
  nextBrickId : ℕ
  outlineSelection : Finset ℕ

/-- Source `addBall` of the orbit-offset variant (App.tsx lines 338-345):
`state.balls.shift().push(ball)` — drop the *first* element (Immutable
`List.shift`), then append the new ball. -/
def addBall (s : AppState) : AppState :=
  let ball := createBallFromPlayer s.nextBallId s.player
  { s with balls := s.balls.drop 1 ++ [ball],
           nextBallId := s.nextBallId + 1 }

/-- Initial store state of the orbit-offset variant (App.tsx lines 330-336). -/
def initialState : AppState :=
  { player := createPlayer, balls := [], nextBallId := 0,
    bricks := [], nextBrickId := 0, outlineSelection := ∅ }

end V2

/-- Id-consistency invariant for the store: every live ball id is below
`nextBallId` and the ball ids are strictly increasing along the list, and
likewise for the brick keys with respect to `nextBrickId`. -/
def ballBrickInv (s : AppState) : Prop :=
  (∀ b ∈ s.balls, b.ballId < s.nextBallId)
  ∧ (s.balls.map Ball.ballId).Pairwise (· < ·)
  ∧ (∀ k ∈ s.bricks.map Prod.fst, k < s.nextBrickId)
  ∧ (s.bricks.map Prod.fst).Pairwise (· < ·)

/-! ## Helper lemmas -/

/-- The identity quaternion is a left unit for the three.js product. -/
theorem multiplyQuaternions_id_left (q : Quat) :
    multiplyQuaternions quatIdentity q = q := by
  cases q with
  | mk x y z w => simp [multiplyQuaternions, quatIdentity]

/-- Appending to a list already truncated to its last 3 elements and
re-truncating keeps the last 3 of the extended list. -/
theorem sliceLast3_step (L : List Ball) (b : Ball) (n : ℕ) (hL : L.length = n) :
    sliceLast3 (L.drop (n - 3) ++ [b]) = (L ++ [b]).drop (n + 1 - 3) := by
  subst hL
  have h1 : L.drop (L.length - 3) ++ [b] = (L ++ [b]).drop (L.length - 3) := by
    rw [List.drop_append_eq_append_drop]
    have h0 : L.length - 3 - L.length = 0 := by omega
    rw [h0]
    rfl
  rw [sliceLast3, h1, List.length_drop, List.drop_drop]
  congr 1
  simp only [List.length_append, List.length_singleton]
  omega

/-- Closed form for iterating `addBall` from the initial store state: the ball
list is the tail of the full creation sequence, `nextBallId` counts the calls,
and nothing else moves. -/
theorem addBall_iterate (r n : ℕ) :
    addBall^[n] (initialState r)
      = { initialState r with
          balls := ((List.range n).map fun k =>
            createBallFromPlayer k (createPlayer r)).drop (n - 3),
          nextBallId := n } := by
  induction n with
  | zero => rfl
  | succ n ih =>
      rw [Function.iterate_succ_apply', ih]
      show addBall _ = _
      simp only [addBall]
      congr 1
      · show sliceLast3 (_ ++ [createBallFromPlayer n (createPlayer r)]) = _
        rw [sliceLast3_step _ _ n (by simp)]
        congr 1
        rw [List.range_succ, List.map_append]
        rfl

/-- Fresh-key insertion: `Map.set` with a key absent from the map appends. -/
theorem mapSet_fresh (m : BrickMap) (k : ℕ) (v : BrickObj)
    (hk : ∀ k' ∈ m.map Prod.fst, k' ≠ k) :
    mapSet m k v = m ++ [(k, v)] := by
  have hany : mapHas m k = false := by
    rw [mapHas, List.any_eq_false]
    intro e he
    have : e.1 ≠ k := hk e.1 (List.mem_map.mpr ⟨e, he, rfl⟩)
    simpa using this
  rw [mapSet, hany]
  simp

/-- The id invariant holds in the initial store state. -/
theorem ballBrickInv_initial (r : ℕ) : ballBrickInv (initialState r) := by
  simp [ballBrickInv, initialState]

/-- `addBall` preserves the id invariant. -/
theorem ballBrickInv_addBall (s : AppState) (h : ballBrickInv s) :
    ballBrickInv (addBall s) := by
  obtain ⟨h1, h2, h3, h4⟩ := h
  refine ⟨?_, ?_, h3, h4⟩
  · intro b hb
    have hsub : (sliceLast3 (s.balls ++ [createBallFromPlayer s.nextBallId s.player])).Sublist
        (s.balls ++ [createBallFromPlayer s.nextBallId s.player]) := List.drop_sublist _ _
    have hmem := hsub.subset hb
    rcases List.mem_append.mp hmem with hx | hx
    · exact Nat.lt_succ_of_lt (h1 b hx)
    · rcases List.mem_singleton.mp hx with rfl
      exact Nat.lt_succ_self _
  · show ((sliceLast3 (s.balls ++ [createBallFromPlayer s.nextBallId s.player])).map
        Ball.ballId).Pairwise (· < ·)
    have hall : ((s.balls ++ [createBallFromPlayer s.nextBallId s.player]).map
        Ball.ballId).Pairwise (· < ·) := by
      rw [List.map_append]
      rw [List.pairwise_append]
      refine ⟨h2, by simp, ?_⟩
      intro a ha b' hb'
      rcases List.mem_map.mp ha with ⟨x, hx, rfl⟩
      rcases List.mem_map.mp hb' with ⟨y, hy, rfl⟩
      rcases List.mem_singleton.mp hy with rfl
      exact h1 x hx
    have hsub : ((sliceLast3 (s.balls ++ [createBallFromPlayer s.nextBallId s.player])).map
        Ball.ballId).Sublist ((s.balls ++ [createBallFromPlayer s.nextBallId s.player]).map
        Ball.ballId) := List.Sublist.map _ (List.drop_sublist _ _)
    exact hall.sublist hsub

/-- `addBrick` preserves the id invariant. -/
theorem ballBrickInv_addBrick (s : AppState) (pos : Vec3) (h : ballBrickInv s) :
    ballBrickInv (addBrick s pos) := by
  obtain ⟨h1, h2, h3, h4⟩ := h
  have hfresh : mapSet s.bricks s.nextBrickId (createBrick s.nextBrickId pos)
      = s.bricks ++ [(s.nextBrickId, createBrick s.nextBrickId pos)] :=
    mapSet_fresh _ _ _ (fun k' hk' => Nat.ne_of_lt (h3 k' hk'))
  refine ⟨h1, h2, ?_, ?_⟩
  · show ∀ k ∈ (mapSet s.bricks s.nextBrickId (createBrick s.nextBrickId pos)).map
        Prod.fst, k < s.nextBrickId + 1
    rw [hfresh, List.map_append]
    intro k hk
    rcases List.mem_append.mp hk with hx | hx
    · exact Nat.lt_succ_of_lt (h3 k hx)
    · simp only [List.map_cons, List.map_nil, List.mem_singleton] at hx
      omega
  · show ((mapSet s.bricks s.nextBrickId (createBrick s.nextBrickId pos)).map
        Prod.fst).Pairwise (· < ·)
    rw [hfresh, List.map_append, List.pairwise_append]
    refine ⟨h4, by simp, ?_⟩
    intro a ha b hb
    simp only [List.map_cons, List.map_nil, List.mem_singleton] at hb
    subst hb
    exact h3 a ha

/-- Any sequence of `addBall` / `addBrick` calls preserves the id invariant. -/
theorem ballBrickInv_run (acts : List GameAct) :
    ∀ s : AppState, ballBrickInv s → ballBrickInv (runActs s acts) := by
  induction acts with
  | nil => intro s h; exact h
  | cons a acts ih =>
      intro s h
      show ballBrickInv ((acts).foldl stepAct (stepAct s a))
      apply ih
      cases a with
      | ballAct => exact ballBrickInv_addBall s h
      | brickAct p => exact ballBrickInv_addBrick s p h

/-- The Fibonacci sphere has exactly 64 sample points. -/
theorem generateFibonacciSphere_length : generateFibonacciSphere.length = 64 := by
  simp [generateFibonacciSphere]

/-- Folding `addBrick` over a point list inserts fresh consecutive keys
starting at `nextBrickId`, leaves the balls untouched, and advances the
counter by the number of points. -/
theorem addBrick_foldl (pts : List Vec3) :
    ∀ s : AppState, (∀ k ∈ s.bricks.map Prod.fst, k < s.nextBrickId) →
      (pts.foldl addBrick s).balls = s.balls
      ∧ (pts.foldl addBrick s).bricks.map Prod.fst
          = s.bricks.map Prod.fst ++ List.range' s.nextBrickId pts.length
      ∧ (pts.foldl addBrick s).nextBrickId = s.nextBrickId + pts.length := by
  induction pts with
  | nil => intro s h; simp
  | cons p pts ih =>
      intro s h
      have hfresh : (addBrick s p).bricks
          = s.bricks ++ [(s.nextBrickId, createBrick s.nextBrickId p)] :=
        mapSet_fresh _ _ _ (fun k' hk' => Nat.ne_of_lt (h k' hk'))
      have hinv' : ∀ k ∈ (addBrick s p).bricks.map Prod.fst,
          k < (addBrick s p).nextBrickId := by
        intro k hk
        rw [hfresh, List.map_append] at hk
        rcases List.mem_append.mp hk with hx | hx
        · exact Nat.lt_succ_of_lt (h k hx)
        · simp only [List.map_cons, List.map_nil, List.mem_singleton] at hx
          subst hx
          exact Nat.lt_succ_self _
      obtain ⟨ha, hb, hc⟩ := ih (addBrick s p) hinv'
      refine ⟨?_, ?_, ?_⟩
      · rw [List.foldl_cons, ha]
        rfl
      · rw [List.foldl_cons, hb, hfresh, List.map_append, List.append_assoc]
        simp only [List.map_cons, List.map_nil, List.length_cons]
        congr 1
      · rw [List.foldl_cons, hc]
        show s.nextBrickId + 1 + pts.length = s.nextBrickId + (pts.length + 1)
        omega

/-- `addDefaultBricks` on a state whose brick keys are all below `nextBrickId`
adds exactly 64 bricks keyed consecutively from `nextBrickId`. -/
theorem addDefaultBricks_spec (s : AppState)
    (h : ∀ k ∈ s.bricks.map Prod.fst, k < s.nextBrickId) :
    (addDefaultBricks s).balls = s.balls
    ∧ (addDefaultBricks s).bricks.map Prod.fst
        = s.bricks.map Prod.fst ++ List.range' s.nextBrickId 64
    ∧ (addDefaultBricks s).nextBrickId = s.nextBrickId + 64 := by
  have h64 := generateFibonacciSphere_length
  have := addBrick_foldl generateFibonacciSphere s h
  rw [h64] at this
  exact this

/-! ## Claims -/

/-- C7: `getAngleFromInput` maps a present pointer to the normalized bipolar
axes `((x/W - 0.5)*2, ((H - y)/H - 0.5)*2)` regardless of key state, and with
no pointer returns the discrete key axes (down gives -1 and wins over up's +1,
left gives -1 and wins over right's +1). -/
theorem getAngleFromInput_spec :
    ∀ (l r u d : Bool) (px py W H : ℝ),
      getAngleFromInput l r u d (some ⟨px, py⟩) W H
        = ((px / W - 0.5) * 2, ((H - py) / H - 0.5) * 2)
      ∧ getAngleFromInput l r u d none W H
        = ((if l then -1 else if r then 1 else 0),
           (if d then -1 else if u then 1 else 0)) := by
  intro l r u d px py W H
  exact ⟨rfl, rfl⟩

/-- C10: `addBall` modifies only the ball list and `nextBallId`; the player,
the brick map, `nextBrickId` and the outline-selection set are unchanged. -/
theorem addBall_frame (s : AppState) :
    (addBall s).player = s.player
    ∧ (addBall s).bricks = s.bricks
    ∧ (addBall s).nextBrickId = s.nextBrickId
    ∧ (addBall s).outlineSelection = s.outlineSelection :=
  ⟨rfl, rfl, rfl, rfl⟩

/-- C9: adding the same handle twice to the outline selection leaves exactly
one entry for it (and equals a single add); removing it after one or two adds
leaves zero entries. -/
theorem outlineSelection_idempotent (s : AppState) (m : ℕ) :
    ((addOutlineSelection (addOutlineSelection s m) m).outlineSelection.filter
        (· = m)).card = 1
    ∧ (addOutlineSelection (addOutlineSelection s m) m).outlineSelection
        = (addOutlineSelection s m).outlineSelection
    ∧ ((removeOutlineSelection (addOutlineSelection s m) m).outlineSelection.filter
        (· = m)).card = 0
    ∧ ((removeOutlineSelection (addOutlineSelection (addOutlineSelection s m) m)
        m).outlineSelection.filter (· = m)).card = 0 := by
  refine ⟨?_, ?_, ?_, ?_⟩
  · have h : (insert m (insert m s.outlineSelection)).filter (· = m) = {m} := by
      ext a
      simp only [Finset.mem_filter, Finset.mem_insert, Finset.mem_singleton]
      tauto
    show (Finset.filter _ (insert m (insert m s.outlineSelection))).card = 1
    rw [h, Finset.card_singleton]
  · show insert m (insert m s.outlineSelection) = insert m s.outlineSelection
    exact Finset.insert_idem m s.outlineSelection
  · have h : ((insert m s.outlineSelection).erase m).filter (· = m) = ∅ := by
      ext a
      simp only [Finset.mem_filter, Finset.mem_erase, Finset.not_mem_empty]
      tauto
    show (Finset.filter _ ((insert m s.outlineSelection).erase m)).card = 0
    rw [h, Finset.card_empty]
  · have h : ((insert m (insert m s.outlineSelection)).erase m).filter (· = m)
        = ∅ := by
      ext a
      simp only [Finset.mem_filter, Finset.mem_erase, Finset.not_mem_empty]
      tauto
    show (Finset.filter _ ((insert m (insert m s.outlineSelection)).erase m)).card = 0
    rw [h, Finset.card_empty]

/-- C3 (amended): from *any* state, the App.tsx `resetGame` empties the balls
and rebuilds exactly 64 distinct bricks — but keyed `nextBrickId ..
nextBrickId+63`, since the counter is never reset; the ids are `0..63` from
the initial state.  The part_000 `resetGame` clears nothing; from the initial
state it likewise yields empty balls and bricks `0..63`. -/
theorem resetGame_spec (s : AppState) (r : ℕ) :
    (AppTsx.resetGame s).balls = []
    ∧ (AppTsx.resetGame s).bricks.map Prod.fst = List.range' s.nextBrickId 64
    ∧ ((AppTsx.resetGame s).bricks.map Prod.fst).Nodup
    ∧ (resetGame (initialState r)).balls = []
    ∧ (resetGame (initialState r)).bricks.map Prod.fst = List.range 64 := by
  obtain ⟨hA, hB, hC⟩ :=
    addDefaultBricks_spec { s with balls := [], bricks := [] } (by simp)
  obtain ⟨hA0, hB0, hC0⟩ :=
    addDefaultBricks_spec (initialState r) (by simp [initialState])
  have hkeys : (AppTsx.resetGame s).bricks.map Prod.fst
      = List.range' s.nextBrickId 64 := by simpa using hB
  have hkeys0 : (resetGame (initialState r)).bricks.map Prod.fst
      = List.range' 0 64 := by simpa [initialState] using hB0
  refine ⟨hA, hkeys, ?_, hA0, ?_⟩
  · rw [hkeys]
    exact List.nodup_range' _ _
  · rw [hkeys0, ← List.range_eq_range']

/-- C3 counterexample: from a state whose `nextBrickId` is 1, the App.tsx
`resetGame` produces 64 bricks keyed `1..64`, not `0..63` — the claim's
"ids are exactly 0..N-1" fails away from the initial state. -/
theorem resetGame_counterexample :
    (AppTsx.resetGame stateWithNextBrickId1).bricks.map Prod.fst ≠ List.range 64
    ∧ (AppTsx.resetGame stateWithNextBrickId1).bricks.length = 64 := by
  obtain ⟨-, hB, -⟩ :=
    addDefaultBricks_spec { stateWithNextBrickId1 with balls := [], bricks := [] }
      (by simp [stateWithNextBrickId1])
  have hkeys : (AppTsx.resetGame stateWithNextBrickId1).bricks.map Prod.fst
      = List.range' 1 64 := by simpa [stateWithNextBrickId1] using hB
  constructor
  · rw [hkeys]
    decide
  · have := congrArg List.length hkeys
    simpa using this

/-- C2 (amended): `updateBrick` on an absent key is *not* a no-op: Immutable's
`Map.update` applies the updater to `undefined` and stores the result, so the
map gains one entry holding just the spread of the changes. -/
theorem updateBrick_absent_inserts (s : AppState) (k : ℕ) (changes : BrickObj)
    (habs : mapGet s.bricks k = none) :
    (updateBrick s k changes).bricks = s.bricks ++ [(k, spreadMerge none changes)]
    ∧ (updateBrick s k changes).bricks.length = s.bricks.length + 1 := by
  have hfind : s.bricks.find? (fun e => e.1 == k) = none := by
    simpa [mapGet, Option.map_eq_none'] using habs
  have hany : mapHas s.bricks k = false := by
    rw [mapHas, List.any_eq_false]
    intro e he
    have := List.find?_eq_none.mp hfind e he
    simpa using this
  have hb : (updateBrick s k changes).bricks
      = s.bricks ++ [(k, spreadMerge none changes)] := by
    show mapUpdate s.bricks k (fun value => spreadMerge value changes) = _
    rw [mapUpdate, habs, mapSet, hany]
    simp
  exact ⟨hb, by rw [hb]; simp⟩

/-- C2 witness: in the empty store, key 999 is absent and a color-only
`updateBrick` inserts one entry. -/
theorem updateBrick_absent_inserts_witness :
    mapGet (initialState 0).bricks 999 = none
    ∧ ((updateBrick (initialState 0) 999 ⟨none, none, some "red"⟩).bricks
        = (initialState 0).bricks ++ [(999, spreadMerge none ⟨none, none, some "red"⟩)]
      ∧ (updateBrick (initialState 0) 999 ⟨none, none, some "red"⟩).bricks.length
        = (initialState 0).bricks.length + 1) :=
  ⟨rfl, updateBrick_absent_inserts (initialState 0) 999 ⟨none, none, some "red"⟩ rfl⟩

/-- C1 (amended): for the `push(ball).slice(-3)` implementation of `addBall`
(part_000 lines 164-171; App.tsx lines 829-836), after `n` calls from the
initial state the ball list is exactly the last `min n 3` elements of the full
creation sequence, in insertion order, hence has length at most 3. -/
theorem addBall_fifo_bound (r n : ℕ) :
    (addBall^[n] (initialState r)).balls
      = ((List.range n).map fun k =>
          createBallFromPlayer k (createPlayer r)).drop (n - 3)
    ∧ (addBall^[n] (initialState r)).balls.length ≤ 3 := by
  have h := addBall_iterate r n
  refine ⟨by rw [h], ?_⟩
  rw [h]
  simp only [List.length_drop, List.length_map, List.length_range]
  omega

/-- C1 counterexample: the `shift().push(ball)` implementation of `addBall`
(App.tsx lines 338-345) evicts on every call once a ball exists: after two
calls from the initial state only the most recent ball (id 1) survives, not
the two most recently added. -/
theorem addBall_fifo_counterexample :
    (V2.addBall (V2.addBall V2.initialState)).balls.map Ball.ballId = [1]
    ∧ ([1] : List ℕ) ≠ [0, 1] := by
  exact ⟨rfl, by simp⟩

/-- C4: along any sequence of `addBall` / `addBrick` calls from the initial
state, the live ball ids and the live brick keys stay pairwise distinct, and
each `addBall` (resp. `addBrick`) increments `nextBallId` (resp.
`nextBrickId`) by exactly 1. -/
theorem id_monotonic (r : ℕ) (acts : List GameAct) :
    ((runActs (initialState r) acts).balls.map Ball.ballId).Nodup
    ∧ ((runActs (initialState r) acts).bricks.map Prod.fst).Nodup
    ∧ (∀ s : AppState, (addBall s).nextBallId = s.nextBallId + 1)
    ∧ (∀ (s : AppState) (pos : Vec3), (addBrick s pos).nextBrickId = s.nextBrickId + 1) := by
  obtain ⟨-, h2, -, h4⟩ := ballBrickInv_run acts (initialState r) (ballBrickInv_initial r)
  exact ⟨h2.imp Nat.ne_of_lt, h4.imp Nat.ne_of_lt, fun s => rfl, fun s pos => rfl⟩

/-- C2 counterexample: `updateBrick(999, \x7bcolor: "red"\x7d)` on a store with
no brick 999 does *not* leave the brick map unchanged — its size grows. -/
theorem updateBrick_absent_counterexample :
    (updateBrick (initialState 0) 999 ⟨none, none, some "red"⟩).bricks.length
      ≠ (initialState 0).bricks.length := by
  show (1 : ℕ) ≠ 0
  simp

/-- The loop body of `generateFibonacciSphere`, with its local constants
inlined. -/
theorem fibPoint_eq (i : ℕ) :
    fibPoint i =
      ⟨Real.cos ((((i + 1) % 64 : ℕ) : ℝ) * (Real.pi * (3 - Real.sqrt 5)))
          * Real.sqrt (1 - ((i : ℝ) * (2 / 64) - 1 + (2 / 64) / 2) ^ 2) * 1.5,
       ((i : ℝ) * (2 / 64) - 1 + (2 / 64) / 2) * 1.5,
       Real.sin ((((i + 1) % 64 : ℕ) : ℝ) * (Real.pi * (3 - Real.sqrt 5)))
          * Real.sqrt (1 - ((i : ℝ) * (2 / 64) - 1 + (2 / 64) / 2) ^ 2) * 1.5⟩ := by
  simp only [fibPoint, Nat.cast_ofNat]

/-- Every Fibonacci-sphere sample point has Euclidean norm exactly 1.5. -/
theorem fibPoint_length (i : ℕ) (hi : i < 64) : (fibPoint i).length = 1.5 := by
  have hiR : (i : ℝ) ≤ 63 := by exact_mod_cast Nat.lt_succ_iff.mp hi
  have hiR0 : (0 : ℝ) ≤ (i : ℝ) := Nat.cast_nonneg i
  rw [fibPoint_eq]
  set yv : ℝ := (i : ℝ) * (2 / 64) - 1 + (2 / 64) / 2 with hyv
  set pv : ℝ := (((i + 1) % 64 : ℕ) : ℝ) * (Real.pi * (3 - Real.sqrt 5)) with hpv
  have h1 : 0 ≤ 1 - yv := by rw [hyv]; linarith
  have h2 : 0 ≤ 1 + yv := by rw [hyv]; linarith
  have hyy : 0 ≤ 1 - yv ^ 2 := by nlinarith [mul_nonneg h1 h2]
  have hd2 : Real.sqrt (1 - yv ^ 2) ^ 2 = 1 - yv ^ 2 := Real.sq_sqrt hyy
  have hpyth : Real.sin pv ^ 2 + Real.cos pv ^ 2 = 1 := Real.sin_sq_add_cos_sq pv
  have hsum : (Real.cos pv * Real.sqrt (1 - yv ^ 2) * 1.5)
        * (Real.cos pv * Real.sqrt (1 - yv ^ 2) * 1.5)
      + (yv * 1.5) * (yv * 1.5)
      + (Real.sin pv * Real.sqrt (1 - yv ^ 2) * 1.5)
        * (Real.sin pv * Real.sqrt (1 - yv ^ 2) * 1.5)
      = 1.5 ^ 2 := by
    linear_combination (1.5 ^ 2 * Real.sqrt (1 - yv ^ 2) ^ 2) * hpyth + 1.5 ^ 2 * hd2
  show Real.sqrt _ = 1.5
  rw [hsum, Real.sqrt_sq (by norm_num : (0 : ℝ) ≤ 1.5)]

/-- C5: `generateFibonacciSphere` is a pure function of its (hard-coded)
inputs — its value is the 64-element sequence given pointwise by the
golden-angle formulas (so two calls yield identical sequences) — and every
returned point has Euclidean norm exactly 1.5, in particular within 1e-6 of
1.5. -/
theorem generateFibonacciSphere_spec :
    generateFibonacciSphere.length = 64
    ∧ generateFibonacciSphere = (List.range 64).map (fun i =>
        ⟨Real.cos ((((i + 1) % 64 : ℕ) : ℝ) * (Real.pi * (3 - Real.sqrt 5)))
            * Real.sqrt (1 - ((i : ℝ) * (2 / 64) - 1 + (2 / 64) / 2) ^ 2) * 1.5,
         ((i : ℝ) * (2 / 64) - 1 + (2 / 64) / 2) * 1.5,
         Real.sin ((((i + 1) % 64 : ℕ) : ℝ) * (Real.pi * (3 - Real.sqrt 5)))
            * Real.sqrt (1 - ((i : ℝ) * (2 / 64) - 1 + (2 / 64) / 2) ^ 2) * 1.5⟩)
    ∧ ∀ p ∈ generateFibonacciSphere, p.length = 1.5 := by
  refine ⟨generateFibonacciSphere_length, ?_, ?_⟩
  · rw [generateFibonacciSphere]
    exact List.map_congr_left fun i _ => fibPoint_eq i
  · intro p hp
    rcases List.mem_map.mp hp with ⟨i, hi, rfl⟩
    exact fibPoint_length i (List.mem_range.mp hi)

/-- C5 witness: the first sample point is in the sequence and has norm 1.5. -/
theorem generateFibonacciSphere_spec_witness :
    fibPoint 0 ∈ generateFibonacciSphere ∧ (fibPoint 0).length = 1.5 := by
  have hmem : fibPoint 0 ∈ generateFibonacciSphere :=
    List.mem_map.mpr ⟨0, List.mem_range.mpr (by norm_num), rfl⟩
  exact ⟨hmem, generateFibonacciSphere_spec.2.2 (fibPoint 0) hmem⟩

/-- The three.js `applyQuaternion` formula is exactly the quaternion
conjugation `q * v * conj q` (a polynomial identity, no unit assumption). -/
theorem applyQuaternion_eq_rotateVec (v : Vec3) (q : Quat) :
    v.applyQuaternion q = rotateVec q v := by
  cases v with
  | mk vx vy vz =>
      cases q with
      | mk qx qy qz qw =>
          simp only [Vec3.applyQuaternion, rotateVec, multiplyQuaternions,
            Vec3.asQuat, Quat.conjugate, Vec3.mk.injEq]
          refine ⟨by ring, by ring, by ring⟩

/-- Rotating the local forward direction by a unit quaternion and scaling by 2
yields a vector of Euclidean norm exactly 2. -/
theorem applyQuat_forward_length (q : Quat) (hq : normSq q = 1) :
    ((Vec3.applyQuaternion ⟨0, 0, -1⟩ q).multiplyScalar 2).length = 2 := by
  cases q with
  | mk x y z w =>
      simp only [normSq] at hq
      simp only [Vec3.applyQuaternion, Vec3.multiplyScalar, Vec3.length]
      have sqrt4 : ∀ a : ℝ, a = 4 → Real.sqrt a = 2 := by
        intro a ha
        rw [ha, show (4 : ℝ) = 2 ^ 2 from by norm_num,
          Real.sqrt_sq (by norm_num : (0 : ℝ) ≤ 2)]
      apply sqrt4
      linear_combination (4 * (x ^ 2 + y ^ 2 + z ^ 2 + w ^ 2) + 4) * hq

/-- C8: `createBallFromPlayer` spawns the ball at the fixed local offset
(0,0,3) rotated by the player's orientation, with velocity the rotated local
forward direction (0,0,-1) scaled by 2 — of norm exactly 2 for a unit
orientation — and the player's color and the given id. -/
theorem createBallFromPlayer_spec (id : ℕ) (p : Player) :
    (createBallFromPlayer id p).position = rotateVec p.orientation ⟨0, 0, 3⟩
    ∧ (createBallFromPlayer id p).velocity
        = (rotateVec p.orientation ⟨0, 0, -1⟩).multiplyScalar 2
    ∧ (normSq p.orientation = 1 → (createBallFromPlayer id p).velocity.length = 2)
    ∧ (createBallFromPlayer id p).color = p.color
    ∧ (createBallFromPlayer id p).ballId = id := by
  refine ⟨?_, ?_, ?_, rfl, rfl⟩
  · exact applyQuaternion_eq_rotateVec ⟨0, 0, 3⟩ p.orientation
  · exact congrArg (fun u => Vec3.multiplyScalar u 2)
      (applyQuaternion_eq_rotateVec ⟨0, 0, -1⟩ p.orientation)
  · intro hq
    exact applyQuat_forward_length p.orientation hq

/-- C8 witness: for the identity-orientation player the hypotheses hold and
the launch speed is 2. -/
theorem createBallFromPlayer_spec_witness :
    normSq (createPlayer 0).orientation = 1
    ∧ (createBallFromPlayer 7 (createPlayer 0)).velocity.length = 2 := by
  have h1 : normSq (createPlayer 0).orientation = 1 := by
    norm_num [createPlayer, quatIdentity, normSq]
  exact ⟨h1, (createBallFromPlayer_spec 7 (createPlayer 0)).2.2.1 h1⟩

/-- C6: from an identity orientation, `movePlayer` with delta 1, only the left
key pressed and no pointer yields exactly the axis-angle rotation of angle -1
about the vertical axis (0,1,0); in general the new orientation is the fixed
composition `existing * vertical * horizontal`. -/
theorem movePlayer_spec (s : AppState) (c : String) (W H : ℝ) :
    (movePlayer { s with player := ⟨quatIdentity, c⟩ }
        1 true false false false none W H).player.orientation
      = setFromAxisAngle ⟨0, 1, 0⟩ (-1)
    ∧ ∀ (delta : ℝ) (l r u d : Bool) (tp : Option TouchPos),
        (movePlayer s delta l r u d tp W H).player.orientation
          = multiplyQuaternions
              (multiplyQuaternions s.player.orientation
                (setFromAxisAngle ⟨-1, 0, 0⟩
                  ((getAngleFromInput l r u d tp W H).2 * delta)))
              (setFromAxisAngle ⟨0, 1, 0⟩
                ((getAngleFromInput l r u d tp W H).1 * delta)) := by
  constructor
  · show multiplyQuaternions (multiplyQuaternions quatIdentity
        (setFromAxisAngle ⟨-1, 0, 0⟩ (0 * 1)))
        (setFromAxisAngle ⟨0, 1, 0⟩ (-1 * 1)) = setFromAxisAngle ⟨0, 1, 0⟩ (-1)
    have hv : setFromAxisAngle ⟨-1, 0, 0⟩ ((0 : ℝ) * 1) = quatIdentity := by
      norm_num [setFromAxisAngle, quatIdentity]
    have hh : setFromAxisAngle ⟨0, 1, 0⟩ ((-1 : ℝ) * 1)
        = setFromAxisAngle ⟨0, 1, 0⟩ (-1) := by norm_num
    rw [hv, hh, multiplyQuaternions_id_left, multiplyQuaternions_id_left]
  · intro delta l r u d tp
    rfl

end

end Sphere
